import Mathlib

/-!
# Verification of the task-board repository's Task Lifecycle Manager

A shallow embedding of the repository's API route handlers
(`src/app/api/tasks/route.ts`, `src/app/api/tasks/[id]/route.ts`,
`src/app/api/boards/route.ts`, `src/app/api/boards/[id]/route.ts`)
and of the client-side optimistic-update handlers of the board detail
page, together with proofs of the specification's claims about them.

JSON field values relevant to the handlers are either absent
(`undefined` after destructuring), explicitly `null`, or strings; the
embedding models exactly this three-state domain (`JVal`).  The Prisma
record store is modelled as an explicit in-memory state (`Store`) with
each handler returning its result, the successor store, and the trace
of store operations it performed (`HandlerOut`).  Timestamps are `Nat`,
and the fresh id / current time / fresh sequence value that Prisma
would supply nondeterministically are explicit parameters.
-/

namespace TaskBoard

/-- A JSON field value after JS destructuring: absent (`undefined`),
explicit `null`, or a string.  The handlers under verification only
ever branch on these three cases for the fields they read. -/
inductive JVal where
  | undef : JVal
  | jnull : JVal
  | str : String → JVal
deriving Repr, DecidableEq

/-- JS truthiness on this domain: `undefined` and `null` are falsy, a
string is truthy iff it is nonempty. -/
def JVal.truthy : JVal → Bool
  | .str s => s != ""
  | _ => false

/-- The underlying string of a string value, `""` otherwise (only used
in positions where the value is known to be a string). -/
def JVal.asString : JVal → String
  | .str s => s
  | _ => ""

/-- JS `v ?? d`: the string of `v` unless `v` is `undefined` or
`null`, in which case the default `d`. -/
def JVal.nullish (v : JVal) (d : String) : String :=
  match v with
  | .str s => s
  | _ => d

/-- JS `v ?? null` stored into a nullable column: `undefined` and
`null` both become `null` (`none`). -/
def JVal.toNullable : JVal → Option String
  | .str s => some s
  | _ => none

/-- JS `v ? f(v) : null` stored into a nullable column (the handlers
use this for `dueDate`): a truthy value is kept, anything falsy
becomes `null`. -/
def JVal.truthyOrNull (v : JVal) : Option String :=
  if v.truthy then some v.asString else none

/-- A `Board` row (`prisma/migrations/..._init/migration.sql`). -/
structure Board where
  id : String
  name : String
  description : Option String
  color : Option String
  createdAt : Nat
  updatedAt : Nat
deriving Repr, DecidableEq

/-- A `Task` row.  All columns come from the checked-in migration
except the sequence column.

`order` is Modelled from the spec: the Prisma schema file itself is
not checked in (only the initial migration is), and `GET /api/tasks`
sorts by an `order` column that the initial migration does not
declare; the spec describes it as "an explicit sequence field".  It is
modelled here as an integer column on the Task record. -/
structure Task where
  id : String
  boardId : String
  title : String
  description : Option String
  status : String
  priority : Option String
  assignedTo : Option String
  dueDate : Option String
  order : Int
  createdAt : Nat
  updatedAt : Nat
deriving Repr, DecidableEq

/-- The record store: the `Board` and `Task` tables, each a list of
rows in insertion order. -/
structure Store where
  boards : List Board
  tasks : List Task
deriving Repr, DecidableEq

/-- One store operation performed by a handler, for reasoning about
which paths touch the store. -/
inductive StoreOp where
  | boardRead : StoreOp
  | taskRead : StoreOp
  | taskQuery : StoreOp
  | boardCreate : StoreOp
  | taskCreate : StoreOp
  | taskUpdate : StoreOp
  | taskDelete : StoreOp
  | boardDelete : StoreOp
deriving Repr, DecidableEq

/-- Whether a store operation mutates the store. -/
def StoreOp.isWrite : StoreOp → Bool
  | .boardCreate | .taskCreate | .taskUpdate | .taskDelete | .boardDelete => true
  | _ => false

/-- A handler's HTTP outcome: a success payload with its status code,
or an error body with its status code and message. -/
inductive ApiResult (α : Type) where
  | ok : Nat → α → ApiResult α
  | err : Nat → String → ApiResult α
deriving Repr, DecidableEq

/-- Full observable outcome of one handler call: the HTTP result, the
store afterwards, and the ordered trace of store operations. -/
structure HandlerOut (α : Type) where
  result : ApiResult α
  store : Store
  trace : List StoreOp
deriving Repr, DecidableEq

/-- `prisma.board.findUnique`. -/
def Store.findBoard (st : Store) (id : String) : Option Board :=
  st.boards.find? (fun b => b.id == id)

/-- `prisma.task.findUnique`. -/
def Store.findTask (st : Store) (id : String) : Option Task :=
  st.tasks.find? (fun t => t.id == id)

/-- The request body of `POST /api/tasks` restricted to the fields the
handler destructures. -/
structure CreateTaskBody where
  boardId : JVal
  title : JVal
  description : JVal
  status : JVal
  priority : JVal
  assignedTo : JVal
  dueDate : JVal
deriving Repr, DecidableEq

/-- The closed status enumeration (`validStatuses` in the source). -/
def validStatuses : List String := ["todo", "in_progress", "done"]

/-- The closed priority enumeration (`validPriorities` in the source). -/
def validPriorities : List String := ["low", "medium", "high"]

/-- `POST /api/tasks` (`src/app/api/tasks/route.ts`): validates
`boardId` and `title` for truthiness, checks the board exists, then
validates `status` and `priority` only when truthy, and finally
inserts the task with `status ?? 'todo'` and nullable coalescing on
the optional fields.  `newId`, `now` and `newOrder` stand for the id,
timestamps and sequence value the store assigns to the fresh row. -/
def POST_tasks (st : Store) (b : CreateTaskBody) (newId : String) (now : Nat)
    (newOrder : Int) : HandlerOut Task :=
  if !b.boardId.truthy then
    ⟨.err 400 "boardId is required", st, []⟩
  else if !b.title.truthy then
    ⟨.err 400 "title is required", st, []⟩
  else
    match st.findBoard b.boardId.asString with
    | none => ⟨.err 404 "Board not found", st, [.boardRead]⟩
    | some _ =>
      if b.status.truthy && !(validStatuses.contains b.status.asString) then
        ⟨.err 400 "Invalid status. Must be one of: todo, in_progress, done", st, [.boardRead]⟩
      else if b.priority.truthy && !(validPriorities.contains b.priority.asString) then
        ⟨.err 400 "Invalid priority. Must be one of: low, medium, high", st, [.boardRead]⟩
      else
        let t : Task :=
          { id := newId
            boardId := b.boardId.asString
            title := b.title.asString
            description := b.description.toNullable
            status := b.status.nullish "todo"
            priority := b.priority.toNullable
            assignedTo := b.assignedTo.toNullable
            dueDate := b.dueDate.truthyOrNull
            order := newOrder
            createdAt := now
            updatedAt := now }
        ⟨.ok 201 t, { st with tasks := st.tasks ++ [t] }, [.boardRead, .taskCreate]⟩

/-- The ordering relation of `GET /api/tasks`:
`orderBy: [{ order: 'asc' }, { createdAt: 'desc' }]` — sequence field
ascending first, creation time descending as tie-break. -/
def taskBefore (a b : Task) : Prop :=
  a.order < b.order ∨ (a.order = b.order ∧ b.createdAt ≤ a.createdAt)

instance : DecidableRel taskBefore := fun a b =>
  inferInstanceAs (Decidable (a.order < b.order ∨ (a.order = b.order ∧ b.createdAt ≤ a.createdAt)))

instance : IsTotal Task taskBefore where
  total a b := by
    unfold taskBefore
    rcases lt_trichotomy a.order b.order with h | h | h
    · exact Or.inl (Or.inl h)
    · rcases le_total b.createdAt a.createdAt with h' | h'
      · exact Or.inl (Or.inr ⟨h, h'⟩)
      · exact Or.inr (Or.inr ⟨h.symm, h'⟩)
    · exact Or.inr (Or.inl h)

instance : IsTrans Task taskBefore where
  trans a b c hab hbc := by
    unfold taskBefore at *
    rcases hab with hab | ⟨hab, hab'⟩
    · rcases hbc with hbc | ⟨hbc, _⟩
      · exact Or.inl (hab.trans hbc)
      · exact Or.inl (hbc ▸ hab)
    · rcases hbc with hbc | ⟨hbc, hbc'⟩
      · exact Or.inl (hab ▸ hbc)
      · exact Or.inr ⟨hab.trans hbc, le_trans hbc' hab'⟩

/-- The sort key of the `GET /api/tasks` ordering. -/
def taskKey (t : Task) : Int × Nat := (t.order, t.createdAt)

/-- `GET /api/tasks?boardId=X` (`src/app/api/tasks/route.ts`): rejects
a missing (or empty, which JS treats as falsy) `boardId` query
parameter, otherwise returns the board's tasks sorted by the sequence
field ascending and creation time descending.  `searchParams.get`
yields `null` for an absent parameter, modelled by `none`. -/
def GET_tasks (st : Store) (boardId : Option String) : HandlerOut (List Task) :=
  match boardId with
  | none => ⟨.err 400 "boardId query parameter is required", st, []⟩
  | some s =>
    if s == "" then ⟨.err 400 "boardId query parameter is required", st, []⟩
    else
      ⟨.ok 200 (List.insertionSort taskBefore (st.tasks.filter (fun t => t.boardId == s))),
        st, [.taskQuery]⟩

/-- The request body of `PATCH /api/tasks/[id]` restricted to the
fields the handler destructures (it reads no `boardId`). -/
structure PatchTaskBody where
  title : JVal
  description : JVal
  status : JVal
  priority : JVal
  assignedTo : JVal
  dueDate : JVal
deriving Repr, DecidableEq

/-- The partial-patch merge of `PATCH /api/tasks/[id]`: a field enters
`updateData` only when its body value is not `undefined`; nullable
columns store `null` for an explicit `null`, `dueDate` goes through
the `dueDate ? new Date(dueDate) : null` ternary, and `updatedAt`
advances to the store's clock. -/
def applyPatch (t : Task) (b : PatchTaskBody) (now : Nat) : Task :=
  { t with
    title := if b.title == .undef then t.title else b.title.asString
    description := if b.description == .undef then t.description else b.description.toNullable
    status := if b.status == .undef then t.status else b.status.asString
    priority := if b.priority == .undef then t.priority else b.priority.toNullable
    assignedTo := if b.assignedTo == .undef then t.assignedTo else b.assignedTo.toNullable
    dueDate := if b.dueDate == .undef then t.dueDate else b.dueDate.truthyOrNull
    updatedAt := now }

/-- `prisma.task.update`: replaces the row with the matching id. -/
def Store.updateTask (st : Store) (id : String) (t' : Task) : Store :=
  { st with tasks := st.tasks.map (fun t => if t.id == id then t' else t) }

/-- `PATCH /api/tasks/[id]` (`src/app/api/tasks/[id]/route.ts`): reads
the task first and 404s when absent; validates `status` whenever it is
not `undefined` and `priority` whenever it is neither `undefined` nor
`null`; an explicit `null` title would be rejected by the Prisma
client at the update call (non-nullable column), surfacing as the
handler's catch-all 500 with no mutation; otherwise merges only the
supplied fields. -/
def PATCH_task (st : Store) (id : String) (b : PatchTaskBody) (now : Nat) :
    HandlerOut Task :=
  match st.findTask id with
  | none => ⟨.err 404 "Task not found", st, [.taskRead]⟩
  | some t =>
    if b.status != .undef && !(validStatuses.contains b.status.asString) then
      ⟨.err 400 "Invalid status. Must be one of: todo, in_progress, done", st, [.taskRead]⟩
    else if b.priority != .undef && b.priority != .jnull &&
        !(validPriorities.contains b.priority.asString) then
      ⟨.err 400 "Invalid priority. Must be one of: low, medium, high", st, [.taskRead]⟩
    else if b.title == .jnull then
      ⟨.err 500 "Internal server error", st, [.taskRead]⟩
    else
      let t' := applyPatch t b now
      ⟨.ok 200 t', st.updateTask id t', [.taskRead, .taskUpdate]⟩

/-- `DELETE /api/tasks/[id]` (`src/app/api/tasks/[id]/route.ts`):
reads the task first and 404s when absent, otherwise deletes the row
and returns the deleted task's last-known snapshot. -/
def DELETE_task (st : Store) (id : String) : HandlerOut Task :=
  match st.findTask id with
  | none => ⟨.err 404 "Task not found", st, [.taskRead]⟩
  | some t =>
    ⟨.ok 200 t, { st with tasks := st.tasks.filter (fun u => u.id != id) },
      [.taskRead, .taskDelete]⟩

/-- JS `String.prototype.trim`: strip leading and trailing whitespace.
Implemented by structural recursion on the character list so that it
evaluates inside the kernel (the library's `String.trim` is defined by
well-founded recursion). -/
def jsTrim (s : String) : String :=
  ⟨(((s.data.dropWhile Char.isWhitespace).reverse.dropWhile Char.isWhitespace).reverse)⟩

/-- The request body of `POST /api/boards` restricted to the fields
the handler destructures. -/
structure CreateBoardBody where
  name : JVal
  description : JVal
  color : JVal
deriving Repr, DecidableEq

/-- `POST /api/boards` (`src/app/api/boards/route.ts`): rejects a
name that is falsy, not a string (unrepresentable in this domain), or
trims to empty; stores the trimmed name and nullable-coalesced
description and color. -/
def POST_boards (st : Store) (b : CreateBoardBody) (newId : String) (now : Nat) :
    HandlerOut Board :=
  if !b.name.truthy || jsTrim b.name.asString == "" then
    ⟨.err 400 "Name is required", st, []⟩
  else
    let bd : Board :=
      { id := newId
        name := jsTrim b.name.asString
        description := b.description.toNullable
        color := b.color.toNullable
        createdAt := now
        updatedAt := now }
    ⟨.ok 201 bd, { st with boards := st.boards ++ [bd] }, [.boardCreate]⟩

/-- `DELETE /api/boards/[id]` (`src/app/api/boards/[id]/route.ts`):
reads the board first and 404s when absent, otherwise deletes it;
the migration's `Task_boardId_fkey ... ON DELETE CASCADE` makes the
store delete every task referencing the board in the same operation. -/
def DELETE_board (st : Store) (id : String) : HandlerOut Board :=
  match st.findBoard id with
  | none => ⟨.err 404 "Board not found", st, [.boardRead]⟩
  | some bd =>
    ⟨.ok 200 bd,
      { boards := st.boards.filter (fun b => b.id != id)
        tasks := st.tasks.filter (fun t => t.boardId != id) },
      [.boardRead, .boardDelete]⟩

/-- The referential-integrity invariant: every task's `boardId` names
an existing board. -/
def refIntegrity (st : Store) : Bool :=
  st.tasks.all (fun t => st.boards.any (fun b => b.id == t.boardId))

/-! ## Client-side optimistic update coordinator

The board detail page keeps the task list in a `tasks` state variable
and patches it optimistically.  The functions below are the list
transformations its handlers perform on the failure (RolledBack) path:
the optimistic step followed by the revert step, exactly as written in
the source. -/

/-- `handleStatusChange` when the PATCH request fails: the optimistic
step maps the new status over the matching task, the revert step maps
the previously observed status back over the matching task. -/
def handleStatusChange_rollback (tasks : List Task) (taskId : String)
    (newStatus : String) : List Task :=
  match tasks.find? (fun t => t.id == taskId) with
  | none => tasks
  | some task =>
    let optimistic :=
      tasks.map (fun t => if t.id == taskId then { t with status := newStatus } else t)
    optimistic.map (fun t => if t.id == taskId then { t with status := task.status } else t)

/-- `handleCreateTask` when the POST request fails: the optimistic
task is appended, then every entry with the optimistic id is filtered
out. -/
def handleCreateTask_rollback (tasks : List Task) (optimisticTask : Task) : List Task :=
  (tasks ++ [optimisticTask]).filter (fun t => t.id != optimisticTask.id)

/-- `handleDeleteConfirm` when the DELETE request fails: the matching
task is filtered out optimistically, then the saved snapshot is
appended to the current list (`[...prev, taskToDelete]`). -/
def handleDeleteConfirm_rollback (tasks : List Task) (taskId : String) : List Task :=
  match tasks.find? (fun t => t.id == taskId) with
  | none => tasks
  | some taskToDelete =>
    (tasks.filter (fun t => t.id != taskId)) ++ [taskToDelete]

/-! ## Concrete fixtures used by witnesses and counterexamples -/

/-- A concrete board. -/
def boardEx : Board :=
  { id := "b1", name := "Launch", description := none, color := none
    createdAt := 0, updatedAt := 0 }

/-- A concrete task on `boardEx`, first in the ordered view. -/
def taskA : Task :=
  { id := "a", boardId := "b1", title := "Alpha", description := none
    status := "todo", priority := none, assignedTo := none, dueDate := none
    order := 0, createdAt := 0, updatedAt := 0 }

/-- A second concrete task on `boardEx`. -/
def taskB : Task :=
  { id := "b", boardId := "b1", title := "Beta", description := none
    status := "in_progress", priority := none, assignedTo := none, dueDate := none
    order := 1, createdAt := 1, updatedAt := 1 }

/-- A concrete store holding `boardEx` with `taskA` and `taskB`. -/
def stEx : Store := { boards := [boardEx], tasks := [taskA, taskB] }

/-- The task `POST /api/tasks` inserts for a body that supplies
`status: "done"` on `stEx`. -/
def taskDoneEx : Task :=
  { id := "t1", boardId := "b1", title := "Write copy", description := none
    status := "done", priority := none, assignedTo := none, dueDate := none
    order := 0, createdAt := 5, updatedAt := 5 }

/-- The task `POST /api/tasks` inserts for a body whose title is the
whitespace-only string `"   "` on `stEx`. -/
def taskWsEx : Task :=
  { id := "t3", boardId := "b1", title := "   ", description := none
    status := "todo", priority := none, assignedTo := none, dueDate := none
    order := 0, createdAt := 5, updatedAt := 5 }

/-- The task `POST /api/tasks` inserts for a body that supplies the
empty string as `status` on `stEx`. -/
def taskEmptyStatusEx : Task :=
  { id := "t4", boardId := "b1", title := "T", description := none
    status := "", priority := none, assignedTo := none, dueDate := none
    order := 0, createdAt := 5, updatedAt := 5 }

/-- The board `POST /api/boards` inserts for the name
`"  Launch 2 "` with a null description and absent color. -/
def boardEx2 : Board :=
  { id := "b2", name := "Launch 2", description := none, color := none
    createdAt := 3, updatedAt := 3 }

/-- A concrete patch supplying only `title` and `status`. -/
def patchEx : PatchTaskBody :=
  { title := .str "New", description := .undef, status := .str "in_progress"
    priority := .undef, assignedTo := .undef, dueDate := .undef }

/-- The result of applying `patchEx` at time 9 to `taskA`: only the
supplied fields and `updatedAt` differ. -/
def taskAPatched : Task :=
  { taskA with title := "New", status := "in_progress", updatedAt := 9 }

/-! ## Theorems -/

/-- C1 counterexample: on a store containing board `b1`, a Create call
whose input supplies `status: "done"` inserts a task whose status is
`"done"`, not `"todo"` — the input status is not ignored. -/
theorem created_status_override_cex :
    POST_tasks stEx ⟨.str "b1", .str "Write copy", .undef, .str "done", .undef, .undef, .undef⟩
        "t1" 5 0 =
      ⟨.ok 201 taskDoneEx, { boards := [boardEx], tasks := [taskA, taskB, taskDoneEx] },
        [.boardRead, .taskCreate]⟩ ∧
    taskDoneEx.status ≠ "todo" := by decide

/-- C1 (amended): the task inserted by Create has status `"todo"` when
the input supplies no status (`undefined` or `null`); a supplied
string status is stored as given, and any truthy supplied status has
been validated against the closed enumeration. -/
theorem created_task_status (st : Store) (b : CreateTaskBody) (newId : String)
    (now : Nat) (newOrder : Int) (t : Task)
    (hok : (POST_tasks st b newId now newOrder).result = .ok 201 t) :
    (b.status = .undef ∨ b.status = .jnull → t.status = "todo") ∧
    (∀ s, b.status = .str s → t.status = s) ∧
    (b.status.truthy = true → validStatuses.contains t.status = true) := by
  unfold POST_tasks at hok
  split at hok
  · exact absurd hok (by simp)
  split at hok
  · exact absurd hok (by simp)
  split at hok
  · exact absurd hok (by simp)
  split at hok
  · exact absurd hok (by simp)
  split at hok
  · exact absurd hok (by simp)
  next hguard _ =>
    simp only [Bool.and_eq_true, Bool.not_eq_true', not_and] at hguard
    injection hok with _ ht
    subst ht
    refine ⟨?_, ?_, ?_⟩
    · rintro (h | h) <;> simp [h, JVal.nullish]
    · intro s h; simp [h, JVal.nullish]
    · cases hb : b.status with
      | undef => intro htr; simp [JVal.truthy] at htr
      | jnull => intro htr; simp [JVal.truthy] at htr
      | str s =>
        intro htr
        rw [hb] at hguard
        have hcontains := hguard htr
        simpa [JVal.nullish, JVal.asString, Bool.not_eq_false] using hcontains

/-- Witness for `created_task_status` at a concrete input: a Create
with no supplied status on `stEx` yields a task with status
`"todo"`. -/
theorem created_task_status_witness :
    ({ id := "t2", boardId := "b1", title := "T", description := none
       status := "todo", priority := none, assignedTo := none, dueDate := none
       order := 0, createdAt := 7, updatedAt := 7 } : Task).status = "todo" :=
  (created_task_status stEx ⟨.str "b1", .str "T", .undef, .undef, .undef, .undef, .undef⟩
      "t2" 7 0 _ (by decide)).1 (Or.inl rfl)

/-- C5: when the task id resolves to no existing task, both
`PATCH /api/tasks/[id]` and `DELETE /api/tasks/[id]` return 404
`Task not found`, leave the store exactly as it was, and perform only
the existence-check read. -/
theorem update_delete_not_found (st : Store) (id : String) (b : PatchTaskBody)
    (now : Nat) (h : st.findTask id = none) :
    PATCH_task st id b now = ⟨.err 404 "Task not found", st, [.taskRead]⟩ ∧
    DELETE_task st id = ⟨.err 404 "Task not found", st, [.taskRead]⟩ := by
  constructor
  · unfold PATCH_task; rw [h]
  · unfold DELETE_task; rw [h]

/-- Witness for `update_delete_not_found`: updating or deleting the
nonexistent id `"ghost"` on `stEx` fails with 404 and no side
effect. -/
theorem update_delete_not_found_witness :
    PATCH_task stEx "ghost" ⟨.undef, .undef, .undef, .undef, .undef, .undef⟩ 9 =
      ⟨.err 404 "Task not found", stEx, [.taskRead]⟩ ∧
    DELETE_task stEx "ghost" = ⟨.err 404 "Task not found", stEx, [.taskRead]⟩ :=
  update_delete_not_found stEx "ghost" ⟨.undef, .undef, .undef, .undef, .undef, .undef⟩ 9
    (by decide)

/-- C6 counterexample: a Create whose title is the whitespace-only
string `"   "` — which trims to the empty string — succeeds and
inserts a record, instead of failing with a missing-field error. -/
theorem create_whitespace_title_cex :
    jsTrim "   " = "" ∧
    POST_tasks stEx ⟨.str "b1", .str "   ", .undef, .undef, .undef, .undef, .undef⟩ "t3" 5 0 =
      ⟨.ok 201 taskWsEx, { boards := [boardEx], tasks := [taskA, taskB, taskWsEx] },
        [.boardRead, .taskCreate]⟩ := by decide

/-- C6 (amended): given a truthy `boardId`, Create fails with the
missing-field error `title is required` — inserting no record and
touching the store not at all — exactly when the title is absent,
`null`, or the empty string; a whitespace-only title is truthy and
passes the check (the handler does not trim). -/
theorem create_title_required (st : Store) (b : CreateTaskBody) (newId : String)
    (now : Nat) (newOrder : Int) (hb : b.boardId.truthy = true) :
    ((POST_tasks st b newId now newOrder).result = .err 400 "title is required"
      ↔ b.title.truthy = false) ∧
    (b.title.truthy = false →
      POST_tasks st b newId now newOrder = ⟨.err 400 "title is required", st, []⟩) := by
  unfold POST_tasks
  rw [hb]
  simp only [Bool.not_true, Bool.false_eq_true, if_false]
  cases htr : b.title.truthy with
  | false =>
    refine ⟨?_, fun _ => ?_⟩ <;> simp
  | true =>
    simp only [Bool.not_true, Bool.false_eq_true, if_false]
    refine ⟨⟨fun h => ?_, fun h => Bool.noConfusion h⟩, fun h => Bool.noConfusion h⟩
    exfalso
    split at h
    · simp at h
    split at h
    · simp at h
    split at h
    · simp at h
    · simp at h

/-- Witness for `create_title_required`: on `stEx`, a Create with an
absent title fails with `title is required` and leaves the store
untouched. -/
theorem create_title_required_witness :
    POST_tasks stEx ⟨.str "b1", .undef, .undef, .undef, .undef, .undef, .undef⟩ "t5" 5 0 =
      ⟨.err 400 "title is required", stEx, []⟩ :=
  (create_title_required stEx ⟨.str "b1", .undef, .undef, .undef, .undef, .undef, .undef⟩
      "t5" 5 0 (by decide)).2 (by decide)

/-- C10: `POST /api/boards` fails with `Name is required` exactly when
the supplied name is falsy or trims to the empty string; on success,
the stored board carries the trimmed name, the description and color
as given (with `null` for an absent or null value), and is appended to
the board table. -/
theorem board_create_fields (st : Store) (b : CreateBoardBody) (newId : String) (now : Nat) :
    ((POST_boards st b newId now).result = .err 400 "Name is required"
      ↔ (b.name.truthy = false ∨ jsTrim b.name.asString = "")) ∧
    (∀ bd, (POST_boards st b newId now).result = .ok 201 bd →
      bd.name = jsTrim b.name.asString ∧
      bd.description = b.description.toNullable ∧
      bd.color = b.color.toNullable ∧
      (POST_boards st b newId now).store = { st with boards := st.boards ++ [bd] }) := by
  unfold POST_boards
  split
  next hcond =>
    simp only [Bool.or_eq_true, Bool.not_eq_true', beq_iff_eq] at hcond
    constructor
    · simpa using hcond
    · intro bd h; exact absurd h (by simp)
  next hcond =>
    simp only [Bool.or_eq_true, Bool.not_eq_true', beq_iff_eq, not_or] at hcond
    constructor
    · simp [hcond.1, hcond.2]
    · intro bd h
      injection h with _ hbd
      subst hbd
      exact ⟨rfl, rfl, rfl, rfl⟩

/-- Witness for `board_create_fields`: creating a board named
`"  Launch 2 "` on `stEx` stores the trimmed name `"Launch 2"`. -/
theorem board_create_fields_witness :
    boardEx2.name = jsTrim "  Launch 2 " ∧
    boardEx2.description = JVal.jnull.toNullable ∧
    boardEx2.color = JVal.undef.toNullable ∧
    (POST_boards stEx ⟨.str "  Launch 2 ", .jnull, .undef⟩ "b2" 3).store =
      { stEx with boards := stEx.boards ++ [boardEx2] } :=
  (board_create_fields stEx ⟨.str "  Launch 2 ", .jnull, .undef⟩ "b2" 3).2 boardEx2 (by decide)

/-- C2 counterexample: a Create that supplies the empty string as
`status` — a value outside the closed enumeration — does not fail: the
truthiness-guarded check skips falsy values, and the task is inserted
with the out-of-enumeration status `""` (since `"" ?? 'todo'` keeps
`""`). -/
theorem create_enum_bypass_cex :
    validStatuses.contains "" = false ∧
    POST_tasks stEx ⟨.str "b1", .str "T", .undef, .str "", .undef, .undef, .undef⟩ "t4" 5 0 =
      ⟨.ok 201 taskEmptyStatusEx,
        { boards := [boardEx], tasks := [taskA, taskB, taskEmptyStatusEx] },
        [.boardRead, .taskCreate]⟩ ∧
    taskEmptyStatusEx.status = "" := by decide

/-- C2 (amended): Update rejects any supplied status not in the
enumeration (including explicit `null`) and any supplied priority not
in the enumeration other than the field-clearing explicit `null`, with
an invalid-enum error and no mutation; Create rejects invalid status
and priority values only when they are truthy (a falsy supplied value
such as the empty string bypasses validation and is stored as-is). -/
theorem enum_validation (st : Store) (cb : CreateTaskBody) (pb : PatchTaskBody)
    (tid newId : String) (now : Nat) (newOrder : Int) (bd : Board) (t : Task) :
    (cb.boardId.truthy = true → cb.title.truthy = true →
      st.findBoard cb.boardId.asString = some bd →
      cb.status.truthy = true → validStatuses.contains cb.status.asString = false →
      POST_tasks st cb newId now newOrder =
        ⟨.err 400 "Invalid status. Must be one of: todo, in_progress, done", st,
          [.boardRead]⟩) ∧
    (cb.boardId.truthy = true → cb.title.truthy = true →
      st.findBoard cb.boardId.asString = some bd →
      (cb.status.truthy && !validStatuses.contains cb.status.asString) = false →
      cb.priority.truthy = true → validPriorities.contains cb.priority.asString = false →
      POST_tasks st cb newId now newOrder =
        ⟨.err 400 "Invalid priority. Must be one of: low, medium, high", st,
          [.boardRead]⟩) ∧
    (st.findTask tid = some t →
      pb.status ≠ .undef → validStatuses.contains pb.status.asString = false →
      PATCH_task st tid pb now =
        ⟨.err 400 "Invalid status. Must be one of: todo, in_progress, done", st,
          [.taskRead]⟩) ∧
    (st.findTask tid = some t →
      (pb.status != .undef && !validStatuses.contains pb.status.asString) = false →
      pb.priority ≠ .undef → pb.priority ≠ .jnull →
      validPriorities.contains pb.priority.asString = false →
      PATCH_task st tid pb now =
        ⟨.err 400 "Invalid priority. Must be one of: low, medium, high", st,
          [.taskRead]⟩) := by
  refine ⟨?_, ?_, ?_, ?_⟩
  · intro h1 h2 h3 h4 h5
    have hc : (cb.status.truthy && !validStatuses.contains cb.status.asString) = true := by
      rw [h4, h5]; rfl
    unfold POST_tasks
    rw [h1, h2, h3, hc]
    simp
  · intro h1 h2 h3 h4 h5 h6
    have hc : (cb.priority.truthy && !validPriorities.contains cb.priority.asString) = true := by
      rw [h5, h6]; rfl
    unfold POST_tasks
    rw [h1, h2, h3, h4, hc]
    simp
  · intro h1 h2 h3
    have hc : (pb.status != JVal.undef && !validStatuses.contains pb.status.asString) = true := by
      rw [h3]
      simp [bne_iff_ne, h2]
    unfold PATCH_task
    rw [h1, hc]
    simp
  · intro h1 h2 h3 h4 h5
    have hc : (pb.priority != JVal.undef && pb.priority != JVal.jnull &&
        !validPriorities.contains pb.priority.asString) = true := by
      rw [h5]
      simp [bne_iff_ne, h3, h4]
    unfold PATCH_task
    rw [h1, h2, hc]
    simp

/-- Witness for `enum_validation` at concrete inputs: on `stEx`, a
Create with truthy invalid status `"blocked"` and an Update with
invalid status `"blocked"` both fail with the invalid-enum error and
leave the store untouched. -/
theorem enum_validation_witness :
    POST_tasks stEx ⟨.str "b1", .str "T", .undef, .str "blocked", .undef, .undef, .undef⟩
        "t6" 5 0 =
      ⟨.err 400 "Invalid status. Must be one of: todo, in_progress, done", stEx,
        [.boardRead]⟩ ∧
    PATCH_task stEx "a" ⟨.undef, .undef, .str "blocked", .undef, .undef, .undef⟩ 9 =
      ⟨.err 400 "Invalid status. Must be one of: todo, in_progress, done", stEx,
        [.taskRead]⟩ := by
  have h := enum_validation stEx
    ⟨.str "b1", .str "T", .undef, .str "blocked", .undef, .undef, .undef⟩
    ⟨.undef, .undef, .str "blocked", .undef, .undef, .undef⟩
    "a" "t6" 5 0 boardEx taskA
  exact ⟨h.1 (by decide) (by decide) (by decide) (by decide) (by decide),
    h.2.2.1 (by decide) (by decide) (by decide)⟩

/-- C8 counterexample: a Create that fails enum validation has already
performed a store read — the board-existence lookup precedes the
status check, so the failing path is not free of store calls. -/
theorem validation_after_read_cex :
    POST_tasks stEx ⟨.str "b1", .str "T", .undef, .str "blocked", .undef, .undef, .undef⟩
        "t6" 5 0 =
      ⟨.err 400 "Invalid status. Must be one of: todo, in_progress, done", stEx,
        [.boardRead]⟩ ∧
    (POST_tasks stEx ⟨.str "b1", .str "T", .undef, .str "blocked", .undef, .undef, .undef⟩
        "t6" 5 0).trace ≠ [] := by decide

/-- C8 (amended): every failing Create or Update — validation failure
or otherwise — performs no store write and leaves the store unchanged;
however, a store read (the board- or task-existence lookup) may have
occurred before the validation error is returned, since both handlers
run the existence check before enum validation. -/
theorem validation_no_store_write (st : Store) (cb : CreateTaskBody) (pb : PatchTaskBody)
    (tid newId : String) (now : Nat) (newOrder : Int) (c : Nat) (m : String) :
    ((POST_tasks st cb newId now newOrder).result = .err c m →
      (POST_tasks st cb newId now newOrder).store = st ∧
      (POST_tasks st cb newId now newOrder).trace.all (fun op => !op.isWrite) = true) ∧
    ((PATCH_task st tid pb now).result = .err c m →
      (PATCH_task st tid pb now).store = st ∧
      (PATCH_task st tid pb now).trace.all (fun op => !op.isWrite) = true) := by
  constructor
  · unfold POST_tasks
    split
    · exact fun _ => ⟨rfl, rfl⟩
    split
    · exact fun _ => ⟨rfl, rfl⟩
    split
    · exact fun _ => ⟨rfl, rfl⟩
    split
    · exact fun _ => ⟨rfl, rfl⟩
    split
    · exact fun _ => ⟨rfl, rfl⟩
    · intro h; simp at h
  · unfold PATCH_task
    split
    · exact fun _ => ⟨rfl, rfl⟩
    split
    · exact fun _ => ⟨rfl, rfl⟩
    split
    · exact fun _ => ⟨rfl, rfl⟩
    split
    · exact fun _ => ⟨rfl, rfl⟩
    · intro h; simp at h

/-- Witness for `validation_no_store_write`: the failing Create of the
counterexample leaves `stEx` unchanged and its trace holds no write. -/
theorem validation_no_store_write_witness :
    (POST_tasks stEx ⟨.str "b1", .str "T", .undef, .str "blocked", .undef, .undef, .undef⟩
        "t6" 5 0).store = stEx ∧
    (POST_tasks stEx ⟨.str "b1", .str "T", .undef, .str "blocked", .undef, .undef, .undef⟩
        "t6" 5 0).trace.all (fun op => !op.isWrite) = true :=
  (validation_no_store_write stEx
    ⟨.str "b1", .str "T", .undef, .str "blocked", .undef, .undef, .undef⟩
    ⟨.undef, .undef, .undef, .undef, .undef, .undef⟩ "a" "t6" 5 0 400
    "Invalid status. Must be one of: todo, in_progress, done").1 (by decide)

/-- C4: the Update handler is a partial patch — every field of the
existing task that the patch leaves `undefined` is unchanged in the
updated task; the identity, board reference, sequence and creation
time never change; `updatedAt` advances to the call time; and the
store afterwards is the original with exactly that one row replaced. -/
theorem update_partial_patch (st : Store) (tid : String) (pb : PatchTaskBody) (now : Nat)
    (t t' : Task) (hfind : st.findTask tid = some t)
    (hok : (PATCH_task st tid pb now).result = .ok 200 t') :
    (pb.title = .undef → t'.title = t.title) ∧
    (pb.description = .undef → t'.description = t.description) ∧
    (pb.status = .undef → t'.status = t.status) ∧
    (pb.priority = .undef → t'.priority = t.priority) ∧
    (pb.assignedTo = .undef → t'.assignedTo = t.assignedTo) ∧
    (pb.dueDate = .undef → t'.dueDate = t.dueDate) ∧
    t'.id = t.id ∧ t'.boardId = t.boardId ∧ t'.order = t.order ∧
    t'.createdAt = t.createdAt ∧ t'.updatedAt = now ∧
    (PATCH_task st tid pb now).store = st.updateTask tid t' := by
  have hsome : PATCH_task st tid pb now =
      (if (pb.status != JVal.undef && !validStatuses.contains pb.status.asString) = true then
        ⟨.err 400 "Invalid status. Must be one of: todo, in_progress, done", st, [.taskRead]⟩
      else if (pb.priority != JVal.undef && pb.priority != JVal.jnull &&
          !validPriorities.contains pb.priority.asString) = true then
        ⟨.err 400 "Invalid priority. Must be one of: low, medium, high", st, [.taskRead]⟩
      else if (pb.title == JVal.jnull) = true then
        ⟨.err 500 "Internal server error", st, [.taskRead]⟩
      else
        ⟨.ok 200 (applyPatch t pb now), st.updateTask tid (applyPatch t pb now),
          [.taskRead, .taskUpdate]⟩) := by
    unfold PATCH_task
    rw [hfind]
  have key : PATCH_task st tid pb now =
      ⟨.ok 200 (applyPatch t pb now), st.updateTask tid (applyPatch t pb now),
        [.taskRead, .taskUpdate]⟩ ∧ t' = applyPatch t pb now := by
    rw [hsome] at hok ⊢
    split at hok
    next hg1 => simp at hok
    next hg1 =>
      split at hok
      next hg2 => simp at hok
      next hg2 =>
        split at hok
        next hg3 => simp at hok
        next hg3 =>
          rw [if_neg hg1, if_neg hg2, if_neg hg3]
          injection hok with _ h2
          exact ⟨rfl, h2.symm⟩
  obtain ⟨hout, ht'⟩ := key
  subst ht'
  refine ⟨?_, ?_, ?_, ?_, ?_, ?_, rfl, rfl, rfl, rfl, rfl, ?_⟩
  · intro h; simp [applyPatch, h]
  · intro h; simp [applyPatch, h]
  · intro h; simp [applyPatch, h]
  · intro h; simp [applyPatch, h]
  · intro h; simp [applyPatch, h]
  · intro h; simp [applyPatch, h]
  · rw [hout]

/-- Witness for `update_partial_patch`: patching only `title` and
`status` of `taskA` leaves description, priority, identity, board,
sequence and creation time unchanged and advances `updatedAt`. -/
theorem update_partial_patch_witness :
    taskAPatched.description = taskA.description ∧
    taskAPatched.priority = taskA.priority ∧
    taskAPatched.assignedTo = taskA.assignedTo ∧
    taskAPatched.dueDate = taskA.dueDate ∧
    taskAPatched.id = taskA.id ∧ taskAPatched.boardId = taskA.boardId ∧
    taskAPatched.updatedAt = 9 ∧
    (PATCH_task stEx "a" patchEx 9).store = stEx.updateTask "a" taskAPatched := by
  have h := update_partial_patch stEx "a" patchEx 9 taskA taskAPatched
    (by decide) (by decide)
  obtain ⟨h1, h2, h3, h4, h5, h6, h7, h8, h9, h10, h11, h12⟩ := h
  exact ⟨h2 rfl, h4 rfl, h5 rfl, h6 rfl, h7, h8, h11, h12⟩

end TaskBoard

namespace TaskBoard

/-- A successful board lookup yields a board matching the queried id. -/
theorem findBoard_any (st : Store) (x : String) (bd : Board)
    (h : st.findBoard x = some bd) : st.boards.any (fun b => b.id == x) = true := by
  unfold Store.findBoard at h
  have hp := @List.find?_some Board (fun b => b.id == x) bd st.boards h
  exact List.any_eq_true.mpr ⟨bd, List.mem_of_find?_eq_some h, hp⟩

/-- C3: referential integrity.  Every operation of the lifecycle
manager preserves the invariant that each task's `boardId` references
an existing board; a Create whose (supplied) `boardId` resolves to no
board fails with 404 `Board not found` and changes nothing; and a
successful board deletion removes the board together with every task
referencing it, so no orphaned task remains retrievable. -/
theorem refIntegrity_preserved (st : Store) (cb : CreateTaskBody) (pb : PatchTaskBody)
    (bb : CreateBoardBody) (tid did bid newId : String) (now : Nat) (newOrder : Int)
    (hInv : refIntegrity st = true) :
    refIntegrity (POST_tasks st cb newId now newOrder).store = true ∧
    refIntegrity (PATCH_task st tid pb now).store = true ∧
    refIntegrity (DELETE_task st did).store = true ∧
    refIntegrity (POST_boards st bb newId now).store = true ∧
    refIntegrity (DELETE_board st bid).store = true ∧
    (cb.boardId.truthy = true → cb.title.truthy = true →
      st.findBoard cb.boardId.asString = none →
      POST_tasks st cb newId now newOrder = ⟨.err 404 "Board not found", st, [.boardRead]⟩) ∧
    (∀ bd, st.findBoard bid = some bd →
      (DELETE_board st bid).store.tasks.all (fun t => t.boardId != bid) = true ∧
      (DELETE_board st bid).store.boards.all (fun b => b.id != bid) = true) := by
  refine ⟨?_, ?_, ?_, ?_, ?_, ?_, ?_⟩
  · unfold POST_tasks
    split
    · exact hInv
    · split
      · exact hInv
      · split
        next heq => exact hInv
        next bd2 heq =>
          split
          · exact hInv
          · split
            · exact hInv
            · have hb := findBoard_any st cb.boardId.asString bd2 heq
              unfold refIntegrity at hInv ⊢
              simp only [List.all_append, Bool.and_eq_true]
              exact ⟨hInv, by simp [hb]⟩
  · unfold PATCH_task
    split
    next heq => exact hInv
    next t0 heq =>
      split
      · exact hInv
      · split
        · exact hInv
        · split
          · exact hInv
          · have hmem := List.mem_of_find?_eq_some heq
            unfold refIntegrity at hInv ⊢
            simp only [Store.updateTask, List.all_map]
            refine List.all_eq_true.mpr ?_
            intro u hu
            have hf := List.all_eq_true.mp hInv
            by_cases hid : (u.id == tid) = true
            · simp only [Function.comp_apply, hid, if_true]
              exact hf t0 hmem
            · simp only [Function.comp_apply, hid, if_false]
              exact hf u hu
  · unfold DELETE_task
    split
    next heq => exact hInv
    next t0 heq =>
      unfold refIntegrity at hInv ⊢
      refine List.all_eq_true.mpr ?_
      intro u hu
      exact List.all_eq_true.mp hInv u (List.mem_of_mem_filter hu)
  · unfold POST_boards
    split
    · exact hInv
    · unfold refIntegrity at hInv ⊢
      refine List.all_eq_true.mpr ?_
      intro u hu
      have hb := List.all_eq_true.mp hInv u hu
      simp only [List.any_append, Bool.or_eq_true]
      exact Or.inl hb
  · unfold DELETE_board
    split
    next heq => exact hInv
    next bd0 heq =>
      unfold refIntegrity at hInv ⊢
      refine List.all_eq_true.mpr ?_
      intro u hu
      obtain ⟨humem, hucond⟩ := List.mem_filter.mp hu
      obtain ⟨b0, hbmem, hbid⟩ := List.any_eq_true.mp (List.all_eq_true.mp hInv u humem)
      refine List.any_eq_true.mpr ⟨b0, List.mem_filter.mpr ⟨hbmem, ?_⟩, hbid⟩
      have hb0 : b0.id = u.boardId := by simpa using hbid
      rw [hb0]
      exact hucond
  · intro h1 h2 h3
    unfold POST_tasks
    rw [h1, h2, h3]
    simp
  · intro bd hfind
    unfold DELETE_board
    rw [hfind]
    constructor
    · refine List.all_eq_true.mpr ?_
      intro u hu
      exact (List.mem_filter.mp hu).2
    · refine List.all_eq_true.mpr ?_
      intro b hb
      exact (List.mem_filter.mp hb).2

/-- Witness for `refIntegrity_preserved` on `stEx`: all operations
preserve the invariant; a Create against the nonexistent board
`"nope"` fails with 404 and no change; deleting board `"b1"` leaves no
board or task with that id. -/
theorem refIntegrity_preserved_witness :
    refIntegrity (POST_tasks stEx ⟨.str "nope", .str "T", .undef, .undef, .undef, .undef, .undef⟩
      "x" 1 0).store = true ∧
    refIntegrity (PATCH_task stEx "a" patchEx 9).store = true ∧
    refIntegrity (DELETE_task stEx "b").store = true ∧
    refIntegrity (POST_boards stEx ⟨.str "N", .undef, .undef⟩ "x" 1).store = true ∧
    refIntegrity (DELETE_board stEx "b1").store = true ∧
    POST_tasks stEx ⟨.str "nope", .str "T", .undef, .undef, .undef, .undef, .undef⟩ "x" 1 0 =
      ⟨.err 404 "Board not found", stEx, [.boardRead]⟩ ∧
    (DELETE_board stEx "b1").store.tasks.all (fun t => t.boardId != "b1") = true ∧
    (DELETE_board stEx "b1").store.boards.all (fun b => b.id != "b1") = true := by
  have h := refIntegrity_preserved stEx
    ⟨.str "nope", .str "T", .undef, .undef, .undef, .undef, .undef⟩ patchEx
    ⟨.str "N", .undef, .undef⟩ "a" "b" "b1" "x" 1 0 (by decide)
  have h7 := h.2.2.2.2.2.2 boardEx (by decide)
  exact ⟨h.1, h.2.1, h.2.2.1, h.2.2.2.1, h.2.2.2.2.1,
    h.2.2.2.2.2.1 (by decide) (by decide) (by decide), h7.1, h7.2⟩

end TaskBoard

namespace TaskBoard

/-- Tasks with equal sort keys are mutually `taskBefore`-related. -/
theorem taskBefore_of_keyEq {a b : Task} (h : taskKey a = taskKey b) : taskBefore a b := by
  unfold taskKey at h
  have h1 : a.order = b.order := congrArg Prod.fst h
  have h2 : a.createdAt = b.createdAt := congrArg Prod.snd h
  exact Or.inr ⟨h1, le_of_eq h2.symm⟩

/-- Inserting an element that precedes every `p`-element puts it in
front of all of them: filtering the insertion by `p` conses it onto
the filtered list. -/
theorem filter_orderedInsert_of_before (x : Task) (l : List Task) (p : Task → Bool)
    (hx : p x = true) (hall : ∀ y, p y = true → taskBefore x y) :
    (List.orderedInsert taskBefore x l).filter p = x :: l.filter p := by
  induction l with
  | nil => simp [List.orderedInsert, hx]
  | cons y ys ih =>
    by_cases hr : taskBefore x y
    · simp only [List.orderedInsert, if_pos hr]
      simp [List.filter_cons, hx]
    · have hpy : p y = false := by
        cases hpy2 : p y with
        | false => rfl
        | true => exact absurd (hall y hpy2) hr
      simp only [List.orderedInsert, if_neg hr]
      simp [List.filter_cons, hpy, ih]

/-- Filtering by `p` ignores the insertion of a non-`p` element. -/
theorem filter_orderedInsert_of_not (x : Task) (l : List Task) (p : Task → Bool)
    (hx : p x = false) :
    (List.orderedInsert taskBefore x l).filter p = l.filter p := by
  induction l with
  | nil => simp [List.orderedInsert, hx]
  | cons y ys ih =>
    by_cases hr : taskBefore x y
    · simp only [List.orderedInsert, if_pos hr]
      simp [List.filter_cons, hx]
    · simp only [List.orderedInsert, if_neg hr]
      simp [List.filter_cons, ih]

/-- Stability of the `GET /api/tasks` sort: the elements sharing any
fixed sort key appear in the sorted output in exactly their input
order. -/
theorem filter_insertionSort_keyEq (k : Int × Nat) (l : List Task) :
    (List.insertionSort taskBefore l).filter (fun t => taskKey t == k) =
      l.filter (fun t => taskKey t == k) := by
  induction l with
  | nil => rfl
  | cons x xs ih =>
    simp only [List.insertionSort]
    by_cases hx : (taskKey x == k) = true
    · rw [filter_orderedInsert_of_before x _ _ hx ?_, ih, List.filter_cons, if_pos hx]
      intro y hy
      have hxk : taskKey x = k := by simpa using hx
      have hyk : taskKey y = k := by simpa using hy
      exact taskBefore_of_keyEq (hxk.trans hyk.symm)
    · have hx' : (taskKey x == k) = false := by simpa using hx
      rw [filter_orderedInsert_of_not x _ _ hx', ih, List.filter_cons, if_neg (by simp [hx'])]

/-- C7: `GET /api/tasks` fails with the missing-parameter error when
`boardId` is omitted; otherwise it returns exactly the tasks whose
`boardId` matches (a permutation of the store's filtered rows),
sorted by the sequence field ascending with creation time descending
as tie-break, and the sort is stable: rows with equal sort keys keep
their store order.  Determinism holds because the handler is a
function of the store and the query. -/
theorem list_tasks_contract (st : Store) (s : String) (l : List Task)
    (hs : s ≠ "") (hok : (GET_tasks st (some s)).result = .ok 200 l) :
    GET_tasks st none = ⟨.err 400 "boardId query parameter is required", st, []⟩ ∧
    l.Perm (st.tasks.filter (fun t => t.boardId == s)) ∧
    l.Sorted taskBefore ∧
    (∀ k, l.filter (fun t => taskKey t == k) =
      (st.tasks.filter (fun t => t.boardId == s)).filter (fun t => taskKey t == k)) := by
  have hl : l = List.insertionSort taskBefore (st.tasks.filter (fun t => t.boardId == s)) := by
    simp only [GET_tasks] at hok
    rw [if_neg (by simpa using hs)] at hok
    injection hok with _ h2
    exact h2.symm
  subst hl
  refine ⟨rfl, ?_, ?_, ?_⟩
  · exact List.perm_insertionSort taskBefore _
  · exact List.sorted_insertionSort taskBefore _
  · intro k
    exact filter_insertionSort_keyEq k _

/-- Witness for `list_tasks_contract`: listing board `"b1"` on `stEx`
returns `[taskA, taskB]`, a sorted permutation of the filtered store
rows, and the omitted-parameter call fails with 400. -/
theorem list_tasks_contract_witness :
    GET_tasks stEx none = ⟨.err 400 "boardId query parameter is required", stEx, []⟩ ∧
    ([taskA, taskB] : List Task).Perm (stEx.tasks.filter (fun t => t.boardId == "b1")) ∧
    ([taskA, taskB] : List Task).Sorted taskBefore ∧
    ([taskA, taskB] : List Task).filter (fun t => taskKey t == ((0 : Int), (0 : Nat))) =
      (stEx.tasks.filter (fun t => t.boardId == "b1")).filter
        (fun t => taskKey t == ((0 : Int), (0 : Nat))) := by
  have h := list_tasks_contract stEx "b1" [taskA, taskB] (by decide) (by decide)
  exact ⟨h.1, h.2.1, h.2.2.1, h.2.2.2 ((0 : Int), (0 : Nat))⟩

end TaskBoard

namespace TaskBoard

/-- Mapping a function and then a pointwise left inverse over a list
restores the list. -/
theorem map_map_restore {α : Type} (f g : α → α) (l : List α)
    (h : ∀ u ∈ l, g (f u) = u) : (l.map f).map g = l := by
  induction l with
  | nil => rfl
  | cons x xs ih =>
    simp only [List.map_cons]
    rw [h x (List.mem_cons_self x xs), ih (fun u hu => h u (List.mem_cons_of_mem x hu))]

/-- With pairwise-distinct ids, any task matching the id found by
`find?` is the found task itself. -/
theorem find?_id_unique (i : String) (tasks : List Task)
    (hnd : (tasks.map Task.id).Nodup) (a : Task)
    (ha : tasks.find? (fun t => t.id == i) = some a) :
    ∀ t ∈ tasks, t.id = i → t = a := by
  induction tasks with
  | nil => simp [List.find?] at ha
  | cons x xs ih =>
    rw [List.map_cons] at hnd
    obtain ⟨hx_nmem, hnd'⟩ := List.nodup_cons.mp hnd
    intro t ht hti
    by_cases hx : (x.id == i) = true
    · simp only [List.find?_cons_of_pos, hx] at ha
      injection ha with ha'
      subst ha'
      rcases List.mem_cons.mp ht with h | h
      · exact h
      · exfalso
        have hxi : x.id = i := by simpa using hx
        exact hx_nmem (hxi ▸ hti ▸ List.mem_map_of_mem Task.id h)
    · rw [@List.find?_cons_of_neg Task (fun t => t.id == i) x xs (by simp [hx])] at ha
      rcases List.mem_cons.mp ht with h | h
      · exact absurd (by simp [h ▸ hti] : (x.id == i) = true) hx
      · exact ih hnd' ha t h hti

/-- With pairwise-distinct ids, filtering by the id found by `find?`
yields exactly the found task. -/
theorem filter_id_single (i : String) (tasks : List Task)
    (hnd : (tasks.map Task.id).Nodup) (a : Task)
    (ha : tasks.find? (fun t => t.id == i) = some a) :
    tasks.filter (fun t => t.id == i) = [a] := by
  induction tasks with
  | nil => simp [List.find?] at ha
  | cons x xs ih =>
    rw [List.map_cons] at hnd
    obtain ⟨hx_nmem, hnd'⟩ := List.nodup_cons.mp hnd
    by_cases hx : (x.id == i) = true
    · simp only [List.find?_cons_of_pos, hx] at ha
      injection ha with ha'
      subst ha'
      rw [@List.filter_cons_of_pos Task (fun t => t.id == i) x xs hx]
      have hnil : xs.filter (fun t => t.id == i) = [] := by
        rw [List.filter_eq_nil_iff]
        intro t ht hcon
        have hti : t.id = i := by simpa using hcon
        have hxi : x.id = i := by simpa using hx
        exact hx_nmem (hxi ▸ hti ▸ List.mem_map_of_mem Task.id ht)
      rw [hnil]
    · rw [@List.find?_cons_of_neg Task (fun t => t.id == i) x xs (by simp [hx])] at ha
      rw [@List.filter_cons_of_neg Task (fun t => t.id == i) x xs (by simp [hx])]
      exact ih hnd' ha

/-- C9 counterexample: after a failed optimistic delete of the first
of two tasks, the rollback restores the task at the end of the list
(`[...prev, taskToDelete]`), not at its original position — the local
view does not revert to its pre-mutation snapshot. -/
theorem delete_rollback_position_cex :
    handleDeleteConfirm_rollback [taskA, taskB] "a" = [taskB, taskA] ∧
    [taskB, taskA] ≠ [taskA, taskB] := by decide

/-- C9 (amended): for a task list with pairwise-distinct ids, the
rollback of a failed status change and of a failed create restore the
pre-mutation snapshot exactly; the rollback of a failed delete
restores the deleted record with every field intact — the resulting
list is a permutation of the snapshot containing the record — but
appends it at the end of the list, so its position in the ordered
view is not restored. -/
theorem optimistic_rollback (tasks : List Task) (taskId newStatus : String)
    (ot snap : Task) (hnd : (tasks.map Task.id).Nodup) :
    handleStatusChange_rollback tasks taskId newStatus = tasks ∧
    (ot.id ∉ tasks.map Task.id → handleCreateTask_rollback tasks ot = tasks) ∧
    (tasks.find? (fun t => t.id == taskId) = some snap →
      handleDeleteConfirm_rollback tasks taskId =
        tasks.filter (fun t => t.id != taskId) ++ [snap] ∧
      (handleDeleteConfirm_rollback tasks taskId).Perm tasks ∧
      snap ∈ handleDeleteConfirm_rollback tasks taskId) := by
  refine ⟨?_, ?_, ?_⟩
  · unfold handleStatusChange_rollback
    cases hfind : tasks.find? (fun t => t.id == taskId) with
    | none => rfl
    | some task =>
      have hid := find?_id_unique taskId tasks hnd task hfind
      have hpt : ∀ u ∈ tasks,
          (fun t => if t.id == taskId then { t with status := task.status } else t)
            ((fun t => if t.id == taskId then { t with status := newStatus } else t) u)
            = u := by
        intro u hu
        by_cases hu_id : (u.id == taskId) = true
        · have hu_eq : u = task := hid u hu (by simpa using hu_id)
          simp [hu_id, ← hu_eq]
        · simp [hu_id]
      exact map_map_restore _ _ tasks hpt
  · intro hnot
    unfold handleCreateTask_rollback
    rw [List.filter_append]
    have h1 : tasks.filter (fun t => t.id != ot.id) = tasks := by
      rw [List.filter_eq_self]
      intro u hu
      have hne : u.id ≠ ot.id := fun h => hnot (h ▸ List.mem_map_of_mem Task.id hu)
      simpa using hne
    have h2 : [ot].filter (fun t => t.id != ot.id) = [] := by simp
    rw [h1, h2, List.append_nil]
  · intro hfind
    unfold handleDeleteConfirm_rollback
    rw [hfind]
    refine ⟨rfl, ?_, ?_⟩
    · have hsingle : tasks.filter (fun t => t.id == taskId) = [snap] :=
        filter_id_single taskId tasks hnd snap hfind
      have hperm := List.filter_append_perm (fun t => t.id != taskId) tasks
      have hneg : tasks.filter (fun t => !(t.id != taskId)) = [snap] := by
        rw [← hsingle]
        apply List.filter_congr
        intro u _
        simp [bne]
      rw [hneg] at hperm
      exact hperm
    · exact List.mem_append_right _ (List.mem_singleton.mpr rfl)

/-- Witness for `optimistic_rollback` on the two-task list of `stEx`:
status-change and create rollbacks restore the list exactly, and the
delete rollback yields a permutation still containing the deleted
task's snapshot. -/
theorem optimistic_rollback_witness :
    handleStatusChange_rollback [taskA, taskB] "a" "done" = [taskA, taskB] ∧
    handleCreateTask_rollback [taskA, taskB] taskDoneEx = [taskA, taskB] ∧
    (handleDeleteConfirm_rollback [taskA, taskB] "a").Perm [taskA, taskB] ∧
    taskA ∈ handleDeleteConfirm_rollback [taskA, taskB] "a" := by
  have h := optimistic_rollback [taskA, taskB] "a" "done" taskDoneEx taskA (by decide)
  have h3 := h.2.2 (by decide)
  exact ⟨h.1, h.2.1 (by decide), h3.2.1, h3.2.2⟩

end TaskBoard
